import Mathlib

/-!
Verification of the Clockwork ECS core and scheduler
(`src/engine/core/ecs/src/index.ts`, `src/engine/core/scheduler/src/index.ts`)
against the natural-language specification.

JS `Map` objects are embedded as insertion-ordered association lists,
JS arrays of numbers/booleans as `List Nat` / `List Bool` (with `push` as
append-at-end and `pop` as take-last, matching JS array semantics), 32-bit
unsigned wraparound (`>>> 0`) as `% 2 ^ 32`, thrown exceptions as explicit
error values, and the scheduler's floating-point time arithmetic as exact
rational arithmetic (`ℚ`).  Component values are a type parameter `α`.
-/

namespace Clockwork

/-- Association-list lookup, modelling `Map.get`. -/
def mapGet {κ β : Type} [DecidableEq κ] : List (κ × β) → κ → Option β
  | [], _ => none
  | p :: rest, k => if p.1 = k then some p.2 else mapGet rest k

/-- Association-list update, modelling `Map.set`: replaces the entry in place
when the key is present, otherwise appends (insertion order preserved). -/
def mapSet {κ β : Type} [DecidableEq κ] : List (κ × β) → κ → β → List (κ × β)
  | [], k, v => [(k, v)]
  | p :: rest, k, v => if p.1 = k then (k, v) :: rest else p :: mapSet rest k v

/-- Association-list removal, modelling `Map.delete`. -/
def mapDelete {κ β : Type} [DecidableEq κ] : List (κ × β) → κ → List (κ × β)
  | [], _ => []
  | p :: rest, k => if p.1 = k then mapDelete rest k else p :: mapDelete rest k

/-- Insert a key into an ascending list, helper for `sortKeys`. -/
def insertSorted (x : Nat) : List Nat → List Nat
  | [] => [x]
  | y :: ys => if x ≤ y then x :: y :: ys else y :: insertSorted x ys

/-- Ascending sort of a key list, modelling `[...keys].sort((a, b) => a - b)`. -/
def sortKeys : List Nat → List Nat
  | [] => []
  | x :: xs => insertSorted x (sortKeys xs)

/-- Unique handle to a living entity (`EntityId` in the source). -/
structure EntityId where
  index : Nat
  generation : Nat
deriving DecidableEq

/-- Generational entity allocator with free-list recycling (`EntityManager`). -/
structure EntityManager where
  generations : List Nat := []
  alive : List Bool := []
  freeIndices : List Nat := []
  aliveCount : Nat := 0
deriving DecidableEq

/-- `EntityManager.isAlive`: in-range index, slot marked alive, matching generation. -/
def EntityManager.isAlive (m : EntityManager) (e : EntityId) : Bool :=
  if e.index < m.generations.length then
    m.alive.getD e.index false && decide (m.generations.getD e.index 0 = e.generation)
  else
    false

/-- `EntityManager.create`: pop the most recently freed index (JS `Array.pop`
takes the last element) or grow the table with a fresh index at generation 0. -/
def EntityManager.create (m : EntityManager) : EntityManager × EntityId :=
  match m.freeIndices.getLast? with
  | none =>
    let newIndex := m.generations.length
    ({ generations := m.generations ++ [0]
       alive := m.alive ++ [true]
       freeIndices := m.freeIndices
       aliveCount := m.aliveCount + 1 },
     { index := newIndex, generation := 0 })
  | some index =>
    ({ m with
        alive := m.alive.set index true
        freeIndices := m.freeIndices.dropLast
        aliveCount := m.aliveCount + 1 },
     { index := index, generation := m.generations.getD index 0 })

/-- `EntityManager.destroy`: no-op on a dead handle; otherwise mark the slot
dead, bump its generation with 32-bit wraparound, push the index on the free
list. -/
def EntityManager.destroy (m : EntityManager) (e : EntityId) : EntityManager :=
  if m.isAlive e then
    { generations := m.generations.set e.index ((m.generations.getD e.index 0 + 1) % 2 ^ 32)
      alive := m.alive.set e.index false
      freeIndices := m.freeIndices ++ [e.index]
      aliveCount := m.aliveCount - 1 }
  else
    m

/-- `EntityManager.getGeneration`. -/
def EntityManager.getGeneration (m : EntityManager) (e : EntityId) : Nat :=
  if e.index < m.generations.length then m.generations.getD e.index 0 else 0

/-- `EntityManager.iterAlive` materialised as a list, in ascending index order. -/
def EntityManager.iterAlive (m : EntityManager) : List EntityId :=
  (List.range m.alive.length).filterMap fun i =>
    if m.alive.getD i false then some ⟨i, m.generations.getD i 0⟩ else none

/-- Stored component record: `{generation, value, changedAt}`. -/
structure StoredComponent (α : Type) where
  generation : Nat
  value : α
  changedAt : Nat
deriving DecidableEq

/-- Sparse storage for a single component type (`ComponentStore<T>`), keyed by
entity index with a generation guard. -/
structure ComponentStore (α : Type) where
  values : List (Nat × StoredComponent α) := []
deriving DecidableEq

/-- `ComponentStore.add`: unconditional overwrite of `(generation, value, tick)`. -/
def ComponentStore.add (s : ComponentStore α) (e : EntityId) (c : α) (changeTick : Nat := 0) :
    ComponentStore α :=
  { values := mapSet s.values e.index ⟨e.generation, c, changeTick⟩ }

/-- `ComponentStore.remove`: no-op when the entry is absent or the stored
generation does not match the caller's handle. -/
def ComponentStore.remove (s : ComponentStore α) (e : EntityId) : ComponentStore α :=
  match mapGet s.values e.index with
  | none => s
  | some current =>
    if current.generation = e.generation then { values := mapDelete s.values e.index } else s

/-- `ComponentStore.removeByIndex`: generation-agnostic removal used during
entity destruction. -/
def ComponentStore.removeByIndex (s : ComponentStore α) (index : Nat) : ComponentStore α :=
  { values := mapDelete s.values index }

/-- `ComponentStore.get`: value behind the handle, `none` on absence or
generation mismatch. -/
def ComponentStore.get (s : ComponentStore α) (e : EntityId) : Option α :=
  match mapGet s.values e.index with
  | none => none
  | some current => if current.generation = e.generation then some current.value else none

/-- `ComponentStore.has`: presence behind the handle with generation check. -/
def ComponentStore.has (s : ComponentStore α) (e : EntityId) : Bool :=
  match mapGet s.values e.index with
  | none => false
  | some current => decide (current.generation = e.generation)

/-- `ComponentStore.getChangedAt`: change stamp behind the handle, `none` on
absence or generation mismatch. -/
def ComponentStore.getChangedAt (s : ComponentStore α) (e : EntityId) : Option Nat :=
  match mapGet s.values e.index with
  | none => none
  | some current => if current.generation = e.generation then some current.changedAt else none

/-- `ComponentStore.sortedEntities`: live keys sorted ascending, each paired
with its stored generation. -/
def ComponentStore.sortedEntities (s : ComponentStore α) : List EntityId :=
  (sortKeys (s.values.map Prod.fst)).filterMap fun i =>
    (mapGet s.values i).map fun stored => ⟨i, stored.generation⟩

/-- Versioned resource descriptor with dependency tracking (`ResourceType`).
Token-to-id translation (`fromToken`) is outside the claims' scope, so the
stable string id is carried directly. -/
inductive ResourceType : Type where
  | mk (id : String) (version : Nat) (dependencies : List ResourceType)

/-- The stable id of a `ResourceType`. -/
def ResourceType.id : ResourceType → String
  | .mk i _ _ => i

/-- The declared version of a `ResourceType`. -/
def ResourceType.version : ResourceType → Nat
  | .mk _ v _ => v

/-- The declared dependencies of a `ResourceType`. -/
def ResourceType.dependencies : ResourceType → List ResourceType
  | .mk _ _ d => d

/-- Stored resource entry: `{type, value, revision}`. -/
structure StoredResource (α : Type) where
  type : ResourceType
  value : α
  revision : Nat

/-- Type-safe container for named resources (`ResourceMap`), keyed by the
resource type's id string, with a map-wide revision counter. -/
structure ResourceMap (α : Type) where
  values : List (String × StoredResource α) := []
  revision : Nat := 0

/-- Failure conditions of `ResourceMap.insert`: the source throws an `Error`
whose message names the offending dependency; the error kind and dependency id
are carried explicitly here. -/
inductive InsertError : Type where
  | missingDependency (depId : String)
  | versionMismatch (depId : String)
deriving DecidableEq

/-- The dependency-validation loop at the head of `ResourceMap.insert`:
returns the first failure, in declaration order, or `none` when every
dependency is installed with a sufficient version. -/
def ResourceMap.checkDependencies (m : ResourceMap α) : List ResourceType → Option InsertError
  | [] => none
  | dependency :: rest =>
    match mapGet m.values dependency.id with
    | none => some (.missingDependency dependency.id)
    | some installed =>
      if installed.type.version < dependency.version then
        some (.versionMismatch dependency.id)
      else
        m.checkDependencies rest

/-- `ResourceMap.insert`: validate dependencies (throw = return the error with
the untouched map), then bump the map-wide revision and store the entry under
the type's id. -/
def ResourceMap.insert (m : ResourceMap α) (type : ResourceType) (resource : α) :
    ResourceMap α × Option InsertError :=
  match m.checkDependencies type.dependencies with
  | some e => (m, some e)
  | none =>
    ({ revision := m.revision + 1
       values := mapSet m.values type.id ⟨type, resource, m.revision + 1⟩ },
     none)

/-- `ResourceMap.tryGet`: lookup by id string only; `none` when absent. -/
def ResourceMap.tryGet (m : ResourceMap α) (type : ResourceType) : Option α :=
  (mapGet m.values type.id).map (·.value)

/-- Error thrown by `ResourceMap.get`: the message names the id and the
requested version. -/
structure GetError where
  id : String
  requiredVersion : Nat
deriving DecidableEq

/-- `ResourceMap.get`: `tryGet`, throwing (modelled as `Except.error`) when the
resource is not registered. -/
def ResourceMap.get (m : ResourceMap α) (type : ResourceType) : Except GetError α :=
  match m.tryGet type with
  | none => .error ⟨type.id, type.version⟩
  | some resource => .ok resource

/-- `ResourceMap.remove`. -/
def ResourceMap.removeEntry (m : ResourceMap α) (type : ResourceType) : ResourceMap α :=
  { m with values := mapDelete m.values type.id }

/-- `ResourceMap.has`. -/
def ResourceMap.has (m : ResourceMap α) (type : ResourceType) : Bool :=
  (mapGet m.values type.id).isSome

/-- `ResourceMap.getInstalledVersion`. -/
def ResourceMap.getInstalledVersion (m : ResourceMap α) (type : ResourceType) : Option Nat :=
  (mapGet m.values type.id).map (·.type.version)

/-- `ResourceMap.getRevision`. -/
def ResourceMap.getRevision (m : ResourceMap α) (type : ResourceType) : Option Nat :=
  (mapGet m.values type.id).map (·.revision)

/-- Central ECS container (`World`): entity manager, component stores keyed by
component type (types carried as opaque `Nat` identifiers), resources, and the
single monotonic change tick. -/
structure World (α : Type) where
  entities : EntityManager := {}
  components : List (Nat × ComponentStore α) := []
  resources : ResourceMap α := {}
  changeTick : Nat := 0

/-- `World.currentTick` accessor. -/
def World.currentTick (w : World α) : Nat := w.changeTick

/-- `World.spawnEntity`: bump the change tick, then allocate. -/
def World.spawnEntity (w : World α) : World α × EntityId :=
  let result := w.entities.create
  ({ w with changeTick := w.changeTick + 1, entities := result.1 }, result.2)

/-- `World.destroy`: no-op on a dead handle; otherwise clear the entity's index
from every registered store (generation-agnostic), destroy the entity, bump the
tick. -/
def World.destroy (w : World α) (e : EntityId) : World α :=
  if w.entities.isAlive e then
    { w with
        components := w.components.map fun p => (p.1, p.2.removeByIndex e.index)
        entities := w.entities.destroy e
        changeTick := w.changeTick + 1 }
  else
    w

/-- `World.getStore`. -/
def World.getStore (w : World α) (type : Nat) : Option (ComponentStore α) :=
  mapGet w.components type

/-- `World.addComponent`: no-op on a dead handle; otherwise ensure the store
exists, bump the tick, and stamp the write with the post-increment tick. -/
def World.addComponent (w : World α) (e : EntityId) (type : Nat) (component : α) : World α :=
  if w.entities.isAlive e then
    let store := (mapGet w.components type).getD {}
    { w with
        changeTick := w.changeTick + 1
        components := mapSet w.components type (store.add e component (w.changeTick + 1)) }
  else
    w

/-- `World.removeComponent`: no-op on a dead handle and when no store exists
for the type; otherwise delegate to the store's generation-checked remove and
bump the tick. -/
def World.removeComponent (w : World α) (e : EntityId) (type : Nat) : World α :=
  if w.entities.isAlive e then
    match mapGet w.components type with
    | none => w
    | some store =>
      { w with
          components := mapSet w.components type (store.remove e)
          changeTick := w.changeTick + 1 }
  else
    w

/-- `World.getComponent`. -/
def World.getComponent (w : World α) (e : EntityId) (type : Nat) : Option α :=
  (w.getStore type).bind fun store => store.get e

/-- `World.hasComponent`. -/
def World.hasComponent (w : World α) (e : EntityId) (type : Nat) : Bool :=
  match mapGet w.components type with
  | none => false
  | some store => store.has e

/-- `World.getComponentChangedAt`. -/
def World.getComponentChangedAt (w : World α) (e : EntityId) (type : Nat) : Option Nat :=
  (mapGet w.components type).bind fun store => store.getChangedAt e

/-- Stateful fluent query (`Query`): the four filter sets, plus the mutable
`lastIteratedTick` watermark (initially `-1`). -/
structure Query where
  withTypes : List Nat := []
  withoutTypes : List Nat := []
  optionalTypes : List Nat := []
  changedTypes : List Nat := []
  lastIteratedTick : Int := -1
deriving DecidableEq

/-- `Query.matches`: alive, all `with` types present, no `without` type
present, and every `changed` type freshly written (`changedAt` defined and
strictly above the watermark). -/
def Query.matches (q : Query) (w : World α) (e : EntityId) : Bool :=
  w.entities.isAlive e &&
  q.withTypes.all (fun t => w.hasComponent e t) &&
  q.withoutTypes.all (fun t => !w.hasComponent e t) &&
  q.changedTypes.all (fun t =>
    match w.getComponentChangedAt e t with
    | none => false
    | some changedAt => decide (q.lastIteratedTick < (changedAt : Int)))

/-- `Query.collectCandidates`: all alive entities when no `with` filter is
set, otherwise the first `with` type's store seeds the candidates. -/
def Query.collectCandidates (q : Query) (w : World α) : List EntityId :=
  match q.withTypes with
  | [] => w.entities.iterAlive
  | t :: _ =>
    match w.getStore t with
    | none => []
    | some seedStore => seedStore.sortedEntities

/-- One yielded row of `Query.iter`: the entity and the current value of every
`with` and `optional` type. -/
def Query.resultRow (q : Query) (w : World α) (e : EntityId) :
    EntityId × List (Nat × Option α) :=
  (e, (q.withTypes ++ q.optionalTypes).map fun t => (t, w.getComponent e t))

/-- The full sequence of rows a drain of `Query.iter` yields against a fixed
world. -/
def Query.results (q : Query) (w : World α) : List (EntityId × List (Nat × Option α)) :=
  ((q.collectCandidates w).filter fun e => q.matches w e).map fun e => q.resultRow w e

/-- Generator semantics of `Query.iter`: `drive q w k` performs `k` calls of
the iterator's `next()` against a fixed world, returning the yielded rows and
the query afterwards.  The watermark assignment after the `for` loop runs only
when the generator is driven past its last yield (`k` exceeds the number of
rows); a partially-consumed iteration leaves the query untouched. -/
def Query.drive (q : Query) (w : World α) (k : Nat) :
    List (EntityId × List (Nat × Option α)) × Query :=
  let rows := q.results w
  if rows.length < k then
    (rows, { q with lastIteratedTick := (w.changeTick : Int) })
  else
    (rows.take k, q)

/-- Reference held by a buffered command: a concrete `EntityId` or a
`DeferredEntity` placeholder, identified by its allocation number within the
buffer (JS distinguishes placeholders by object identity). -/
inductive EntityRef : Type where
  | real (e : EntityId)
  | deferred (d : Nat)
deriving DecidableEq

/-- One queued `CommandOperation`.  A `spawn` carries its placeholder id and
the initial components accumulated through `DeferredEntityBuilder.with`. -/
inductive CmdOp (α : Type) : Type where
  | spawn (d : Nat) (initialComponents : List (Nat × α))
  | destroy (entity : EntityRef)
  | add (entity : EntityRef) (type : Nat) (component : α)
  | remove (entity : EntityRef) (type : Nat)
deriving DecidableEq

/-- Deferred mutation queue (`CommandBuffer`): the FIFO operation list and the
next fresh placeholder id. -/
structure CommandBuffer (α : Type) where
  operations : List (CmdOp α) := []
  nextDeferredId : Nat := 0
deriving DecidableEq

/-- `CommandBuffer.spawn`: queue a spawn and hand back the placeholder id. -/
def CommandBuffer.spawn (b : CommandBuffer α) : CommandBuffer α × Nat :=
  ({ operations := b.operations ++ [.spawn b.nextDeferredId []]
     nextDeferredId := b.nextDeferredId + 1 },
   b.nextDeferredId)

/-- `DeferredEntityBuilder.with`: append an initial component to the
placeholder's spawn operation. -/
def CommandBuffer.deferredWith (b : CommandBuffer α) (d : Nat) (type : Nat) (component : α) :
    CommandBuffer α :=
  { b with
      operations := b.operations.map fun op =>
        match op with
        | .spawn d' cs => if d' = d then .spawn d' (cs ++ [(type, component)]) else .spawn d' cs
        | other => other }

/-- `CommandBuffer.destroy` on a resolved or deferred handle. -/
def CommandBuffer.destroyEntity (b : CommandBuffer α) (entity : EntityRef) : CommandBuffer α :=
  { b with operations := b.operations ++ [.destroy entity] }

/-- `CommandBuffer.addComponent`. -/
def CommandBuffer.addComponent (b : CommandBuffer α) (entity : EntityRef) (type : Nat)
    (component : α) : CommandBuffer α :=
  { b with operations := b.operations ++ [.add entity type component] }

/-- `CommandBuffer.removeComponent`. -/
def CommandBuffer.removeComponent (b : CommandBuffer α) (entity : EntityRef) (type : Nat) :
    CommandBuffer α :=
  { b with operations := b.operations ++ [.remove entity type] }

/-- `CommandBuffer.resolveEntity` against the placeholder resolutions recorded
so far during the current flush: a placeholder whose spawn has not been
processed resolves to `none`. -/
def resolveRef (resolved : List (Nat × EntityId)) : EntityRef → Option EntityId
  | .real e => some e
  | .deferred d => mapGet resolved d

/-- The body of `CommandBuffer.flush`: apply the queued operations in FIFO
order against the live world, recording each spawn's resolved `EntityId` so
later operations on the placeholder find it; operations whose entity resolves
to `none` are silently skipped. -/
def applyOps : List (CmdOp α) → List (Nat × EntityId) → World α →
    World α × List (Nat × EntityId)
  | [], resolved, w => (w, resolved)
  | op :: rest, resolved, w =>
    match op with
    | .spawn d cs =>
      let spawned := w.spawnEntity
      let w2 := cs.foldl (fun acc p => acc.addComponent spawned.2 p.1 p.2) spawned.1
      applyOps rest (mapSet resolved d spawned.2) w2
    | .destroy entity =>
      match resolveRef resolved entity with
      | some e => applyOps rest resolved (w.destroy e)
      | none => applyOps rest resolved w
    | .add entity type component =>
      match resolveRef resolved entity with
      | some e => applyOps rest resolved (w.addComponent e type component)
      | none => applyOps rest resolved w
    | .remove entity type =>
      match resolveRef resolved entity with
      | some e => applyOps rest resolved (w.removeComponent e type)
      | none => applyOps rest resolved w

/-- `CommandBuffer.flush`: apply all queued operations, then clear the queue
(`operations.length = 0`). -/
def CommandBuffer.flush (b : CommandBuffer α) (w : World α) : CommandBuffer α × World α :=
  ({ b with operations := [] }, (applyOps b.operations [] w).1)

/-- Outcome of one call of a system's `execute`: a synchronous return, a
returned awaitable (`Promise`), or a thrown exception. -/
inductive ExecKind : Type where
  | sync
  | promise
  | thrown
deriving DecidableEq

/-- The mutable state a system acts on during a stage execution: the world and
the stage invocation's command buffer (`ctx.world` / `ctx.commands`). -/
structure StageState (α : Type) where
  world : World α
  commands : CommandBuffer α

/-- A registered `System` as the scheduler sees it: id, ordering metadata, the
optional `runIf` gate, and `execute` as a state transformer paired with the
outcome kind.  A throwing system's partial side effects, and the synchronous
prefix of an async system's body, are the returned state; for an awaited
promise the returned state is the state after the promise settles. -/
structure MSystem (α : Type) where
  id : String
  order : Int := 0
  runIf : Option (World α → Bool) := none
  execute : StageState α → StageState α × ExecKind

/-- The `for` loop of `Stage.execute`: run each system in sorted order,
skipping those whose `runIf` returns false; stop with failure on a throw or on
a returned promise in a stage that disallows async.  Returns the state reached
and whether the loop completed. -/
def runSystems (allowAsync : Bool) : List (MSystem α) → StageState α → StageState α × Bool
  | [], s => (s, true)
  | system :: rest, s =>
    if (system.runIf.map fun cond => cond s.world).getD true = false then
      runSystems allowAsync rest s
    else
      match system.execute s with
      | (s1, .sync) => runSystems allowAsync rest s1
      | (s1, .thrown) => (s1, false)
      | (s1, .promise) =>
        if allowAsync then runSystems allowAsync rest s1 else (s1, false)

/-- `Stage.execute`: run the systems; only when the loop completes without
error, flush the stage's command buffer. -/
def stageExecute (allowAsync : Bool) (systems : List (MSystem α)) (s : StageState α) :
    StageState α × Bool :=
  match runSystems allowAsync systems s with
  | (s1, true) =>
    let flushed := s1.commands.flush s1.world
    ({ world := flushed.2, commands := flushed.1 }, true)
  | (s1, false) => (s1, false)

/-- `Scheduler.runStage`: obtain a fresh `CommandBuffer` from the world
(`this.world.commands()` constructs a new, empty buffer) and execute the stage
with it; the buffer is a local of the invocation and is dropped afterwards. -/
def runStage (allowAsync : Bool) (systems : List (MSystem α)) (w : World α) : World α × Bool :=
  let result := stageExecute allowAsync systems { world := w, commands := {} }
  (result.1.world, result.2)

/-- Fixed-timestep accumulator state (`TimeResource`), with the source's
floating-point fields embedded as exact rationals. -/
structure TimeResource where
  fixedDelta : ℚ
  elapsed : ℚ := 0
  frameCount : Nat := 0
  accumulator : ℚ := 0
  maxCatchUpSteps : Nat
deriving DecidableEq

/-- Scheduler bookkeeping state relevant to `step`. -/
structure SchedulerState where
  time : TimeResource
  isRunning : Bool := false
  isPaused : Bool := false
  bootExecuted : Bool := false
deriving DecidableEq

/-- The fixed-update `while` loop of `Scheduler.step`: run `FixedUpdate` with
`fixedDelta` while the accumulator holds a full step and fewer than
`maxCatchUpSteps` sub-steps were taken this call.  The loop body executes at
most `maxCatchUpSteps - steps` more times, so a fuel argument of that size
makes the recursion structural; `step` passes `maxCatchUpSteps` as fuel. -/
def fixedLoop (fixedDelta : ℚ) (maxCatchUpSteps : Nat) :
    Nat → ℚ → Nat → ℚ × Nat
  | 0, accumulator, steps => (accumulator, steps)
  | fuel + 1, accumulator, steps =>
    if fixedDelta ≤ accumulator ∧ steps < maxCatchUpSteps then
      fixedLoop fixedDelta maxCatchUpSteps fuel (accumulator - fixedDelta) (steps + 1)
    else
      (accumulator, steps)

/-- One recorded stage invocation of `Scheduler.step`: the stage name and the
`deltaTime` passed to it. -/
structure StageRun where
  name : String
  delta : ℚ
deriving DecidableEq

/-- `Scheduler.step`, modelled as the scheduler's time/flag bookkeeping plus
the trace of `runStage` invocations it performs (stage-body effects on the
world are modelled by `runStage` separately; a `ℚ` delta is always finite, so
only the sign check of the source's validation remains).  Returns `none` for
the thrown validation error. -/
def schedulerStep (s : SchedulerState) (dtReal : ℚ) :
    Option (SchedulerState × List StageRun) :=
  if dtReal < 0 then
    none
  else if ¬s.isRunning ∨ s.isPaused then
    some (s, [])
  else
    let t := s.time
    let bootTrace : List StageRun := if s.bootExecuted then [] else [⟨"Boot", dtReal⟩]
    let a := t.accumulator + dtReal
    let looped := fixedLoop t.fixedDelta t.maxCatchUpSteps t.maxCatchUpSteps a 0
    let accumulator := if t.fixedDelta ≤ looped.1 then 0 else looped.1
    some
      ({ s with
          bootExecuted := true
          time :=
            { t with
                elapsed := t.elapsed + dtReal
                accumulator := accumulator
                frameCount := t.frameCount + 1 } },
       bootTrace ++ [⟨"PreUpdate", dtReal⟩] ++
         List.replicate looped.2 ⟨"FixedUpdate", t.fixedDelta⟩ ++
         [⟨"Update", dtReal⟩, ⟨"LateUpdate", dtReal⟩, ⟨"RenderPrep", dtReal⟩,
          ⟨"Render", dtReal⟩, ⟨"PostRender", dtReal⟩])

/-! Concrete instances used by witnesses and counterexamples. -/

/-- A fresh empty world over `Nat` component values. -/
def sampleWorld0 : World Nat := {}

/-- First spawn on the empty world. -/
def sampleSpawn1 : World Nat × EntityId := World.spawnEntity sampleWorld0

/-- World holding one alive entity. -/
def sampleWorld1 : World Nat := sampleSpawn1.1

/-- The one alive entity of `sampleWorld1` (index 0, generation 0). -/
def sampleEntity1 : EntityId := sampleSpawn1.2

/-- A store holding data for index 0 at generation 0. -/
def sampleStaleStore : ComponentStore Nat := ⟨[(0, ⟨0, 5, 1⟩)]⟩

/-- A handle to index 0 at generation 1: stale with respect to
`sampleStaleStore`. -/
def sampleStaleEntity : EntityId := ⟨0, 1⟩

/-- A world registering `sampleStaleStore` under component type 3. -/
def sampleStaleWorld : World Nat := { sampleWorld1 with components := [(3, sampleStaleStore)] }

/-- One entity carrying component type 0 (written at tick 2). -/
def sampleWorldC : World Nat := sampleWorld1.addComponent sampleEntity1 0 5

/-- A query requiring component type 0 with a changed-filter on it. -/
def sampleQuery : Query := { withTypes := [0], changedTypes := [0] }

/-- Resource type id `time` at version 2, no dependencies. -/
def timeV2 : ResourceType := .mk "time" 2 []

/-- Resource type id `time` at version 1, no dependencies. -/
def timeV1 : ResourceType := .mk "time" 1 []

/-- Resource type depending on `time` version 2 or newer. -/
def physicsType : ResourceType := .mk "physics" 1 [timeV2]

/-- Resource map with `time` installed at version 1. -/
def sampleResources : ResourceMap Nat := (ResourceMap.insert {} timeV1 7).1

/-- System queueing a command on the stage's buffer. -/
def stageSysQueue : MSystem Nat :=
  { id := "queue"
    execute := fun s =>
      ({ s with commands := s.commands.addComponent (.real sampleEntity1) 0 5 }, .sync) }

/-- System that throws. -/
def stageSysThrow : MSystem Nat :=
  { id := "boom", execute := fun s => (s, .thrown) }

/-- System mutating the world directly. -/
def stageSysLate : MSystem Nat :=
  { id := "late", execute := fun s => ({ s with world := s.world.addComponent sampleEntity1 1 9 }, .sync) }

/-- Initial stage state over `sampleWorld1` with a fresh buffer. -/
def sampleStage0 : StageState Nat := { world := sampleWorld1, commands := {} }

/-- System that queues an add of component 0 unless the marker component 9 is
present on `sampleEntity1`. -/
def c4SysQueue : MSystem Nat :=
  { id := "queue-unless-marked"
    execute := fun s =>
      if s.world.hasComponent sampleEntity1 9 then (s, .sync)
      else ({ s with commands := s.commands.addComponent (.real sampleEntity1) 0 5 }, .sync) }

/-- System that throws unless the marker component 9 is present on
`sampleEntity1`. -/
def c4SysThrow : MSystem Nat :=
  { id := "throw-unless-marked"
    execute := fun s =>
      if s.world.hasComponent sampleEntity1 9 then (s, .sync) else (s, .thrown) }

/-- The two-system stage of the command-retention scenario. -/
def c4Systems : List (MSystem Nat) := [c4SysQueue, c4SysThrow]

/-- World after the aborted first invocation, with the marker component added
so the next invocation completes successfully. -/
def c4MarkedWorld : World Nat :=
  ((runStage false c4Systems sampleWorld1).1).addComponent sampleEntity1 9 1

/-- A running, unpaused scheduler with `fixedDelta = 1/60` and
`maxCatchUpSteps = 2`, accumulator empty. -/
def sampleScheduler : SchedulerState :=
  { time := { fixedDelta := 1 / 60, maxCatchUpSteps := 2 }
    isRunning := true
    isPaused := false }

/-! # Theorems -/

/-- Reading a just-written position of a list. -/
theorem listGetD_set_eq {β : Type} (l : List β) (i : Nat) (a d : β) (h : i < l.length) :
    (l.set i a).getD i d = a := by
  induction l generalizing i with
  | nil => simp at h
  | cons x xs ih =>
    cases i with
    | zero => rfl
    | succ n =>
      simp only [List.set_cons_succ, List.getD_cons_succ]
      exact ih n (by simpa using h)

/-- An in-range `getD` read is a member of the list. -/
theorem listGetD_mem {β : Type} (l : List β) (i : Nat) (d : β) (h : i < l.length) :
    l.getD i d ∈ l := by
  induction l generalizing i with
  | nil => simp at h
  | cons x xs ih =>
    cases i with
    | zero => simp [List.getD_cons_zero]
    | succ n =>
      simp only [List.getD_cons_succ]
      exact List.mem_cons_of_mem _ (ih n (by simpa using h))

/-- Unfolding of `EntityManager.isAlive` into its three conditions. -/
theorem EntityManager.isAlive_iff (m : EntityManager) (e : EntityId) :
    m.isAlive e = true ↔
      e.index < m.generations.length ∧ m.alive.getD e.index false = true ∧
        m.generations.getD e.index 0 = e.generation := by
  unfold EntityManager.isAlive
  by_cases h : e.index < m.generations.length
  · rw [if_pos h]
    simp [h, Bool.and_eq_true]
  · rw [if_neg h]
    simp [h]

/-- Bumping a generation below the 32-bit bound never returns it to itself. -/
theorem succ_mod_ne_self (g : Nat) (h : g < 2 ^ 32) : (g + 1) % 2 ^ 32 ≠ g := by
  have h32 : (2 : Nat) ^ 32 = 4294967296 := by norm_num
  rw [h32] at h ⊢
  omega

/-- Recycling at the `EntityManager` level: destroying an alive entity and
immediately creating re-issues the same index at the bumped generation; the old
handle is dead and the new one alive. -/
theorem manager_destroy_create (m : EntityManager) (E : EntityId)
    (halive : m.isAlive E = true)
    (hlen : m.alive.length = m.generations.length)
    (hgen : ∀ g ∈ m.generations, g < 2 ^ 32) :
    ((m.destroy E).create).2.index = E.index ∧
    ((m.destroy E).create).2.generation = (E.generation + 1) % 2 ^ 32 ∧
    ((m.destroy E).create).1.isAlive E = false ∧
    ((m.destroy E).create).1.isAlive ((m.destroy E).create).2 = true := by
  obtain ⟨hi, ha, hg⟩ := (m.isAlive_iff E).mp halive
  have hEgen : E.generation < 2 ^ 32 := hg ▸ hgen _ (listGetD_mem _ _ _ hi)
  have hd : m.destroy E =
      { generations := m.generations.set E.index ((E.generation + 1) % 2 ^ 32)
        alive := m.alive.set E.index false
        freeIndices := m.freeIndices ++ [E.index]
        aliveCount := m.aliveCount - 1 } := by
    rw [EntityManager.destroy, if_pos halive, hg]
  have hc : (m.destroy E).create =
      ({ generations := m.generations.set E.index ((E.generation + 1) % 2 ^ 32)
         alive := (m.alive.set E.index false).set E.index true
         freeIndices := m.freeIndices
         aliveCount := m.aliveCount - 1 + 1 },
       { index := E.index, generation := (E.generation + 1) % 2 ^ 32 }) := by
    rw [hd]
    unfold EntityManager.create
    simp only [List.getLast?_concat, List.dropLast_concat]
    rw [listGetD_set_eq _ _ _ _ hi]
  rw [hc]
  refine ⟨rfl, rfl, ?_, ?_⟩
  · rw [Bool.eq_false_iff]
    intro hcontra
    obtain ⟨_, _, hgen2⟩ := (EntityManager.isAlive_iff _ _).mp hcontra
    rw [listGetD_set_eq _ _ _ _ hi] at hgen2
    exact succ_mod_ne_self E.generation hEgen hgen2
  · refine (EntityManager.isAlive_iff _ _).mpr ⟨?_, ?_, ?_⟩
    · simpa using hi
    · rw [listGetD_set_eq]
      simpa [hlen] using hi
    · rw [listGetD_set_eq _ _ _ _ hi]

/-- C1: for every World `w` and entity `E` alive in `w`, `w.destroy E`
followed immediately by `spawnEntity` returns a handle with the same index and
generation `E.generation + 1` (wrapping as an unsigned 32-bit value); after the
two calls `E` is no longer alive and the new handle is alive.  The hypotheses
record the allocator's structural invariants (parallel tables, generations
below `2 ^ 32`), which hold for every world built by the public API. -/
theorem destroy_then_spawn_recycles {α : Type} (w : World α) (E : EntityId)
    (halive : w.entities.isAlive E = true)
    (hlen : w.entities.alive.length = w.entities.generations.length)
    (hgen : ∀ g ∈ w.entities.generations, g < 2 ^ 32) :
    ((w.destroy E).spawnEntity).2.index = E.index ∧
    ((w.destroy E).spawnEntity).2.generation = (E.generation + 1) % 2 ^ 32 ∧
    ((w.destroy E).spawnEntity).1.entities.isAlive E = false ∧
    ((w.destroy E).spawnEntity).1.entities.isAlive ((w.destroy E).spawnEntity).2 = true := by
  have hent : (w.destroy E).entities = w.entities.destroy E := by
    rw [World.destroy, if_pos halive]
  have h1 : ((w.destroy E).spawnEntity).2 = ((w.entities.destroy E).create).2 := by
    rw [World.spawnEntity, hent]
  have h2 : ((w.destroy E).spawnEntity).1.entities = ((w.entities.destroy E).create).1 := by
    rw [World.spawnEntity, hent]
  obtain ⟨c1, c2, c3, c4⟩ := manager_destroy_create w.entities E halive hlen hgen
  exact ⟨by rw [h1]; exact c1, by rw [h1]; exact c2, by rw [h2]; exact c3,
    by rw [h1, h2]; exact c4⟩

/-- Witness for C1 at the concrete one-entity world. -/
theorem destroy_then_spawn_recycles_witness :
    ((sampleWorld1.destroy sampleEntity1).spawnEntity).2.index = sampleEntity1.index ∧
    ((sampleWorld1.destroy sampleEntity1).spawnEntity).2.generation =
      (sampleEntity1.generation + 1) % 2 ^ 32 ∧
    ((sampleWorld1.destroy sampleEntity1).spawnEntity).1.entities.isAlive sampleEntity1 = false ∧
    ((sampleWorld1.destroy sampleEntity1).spawnEntity).1.entities.isAlive
      ((sampleWorld1.destroy sampleEntity1).spawnEntity).2 = true :=
  destroy_then_spawn_recycles sampleWorld1 sampleEntity1 (by decide) (by decide) (by decide)

/-- Looking up a just-set key of an association list. -/
theorem mapGet_mapSet_eq {κ β : Type} [DecidableEq κ] (l : List (κ × β)) (k : κ) (v : β) :
    mapGet (mapSet l k v) k = some v := by
  induction l with
  | nil => simp [mapGet, mapSet]
  | cons p rest ih =>
    by_cases h : p.1 = k
    · simp [mapSet, mapGet, h]
    · simp [mapSet, mapGet, h, ih]

/-- A successful association-list lookup is a member. -/
theorem mapGet_mem {κ β : Type} [DecidableEq κ] (l : List (κ × β)) (k : κ) (v : β)
    (h : mapGet l k = some v) : (k, v) ∈ l := by
  induction l with
  | nil => simp [mapGet] at h
  | cons p rest ih =>
    obtain ⟨p1, p2⟩ := p
    by_cases hk : p1 = k
    · rw [mapGet, if_pos hk] at h
      injection h with hv
      subst hk
      subst hv
      exact List.mem_cons_self _ _
    · rw [mapGet, if_neg hk] at h
      exact List.mem_cons_of_mem _ (ih h)

/-- C9: a `ComponentStore` access through a handle whose generation does not
match the stored generation at the handle's index is a silent no-op: `get`,
`has`, `getChangedAt` signal absence, `remove` leaves the store unchanged, and
the `World`-level component reads through such a handle signal absence as
well.  Nothing throws: every operation is total. -/
theorem stale_handle_noop {α : Type} (s : ComponentStore α) (e : EntityId)
    (current : StoredComponent α)
    (hstored : mapGet s.values e.index = some current)
    (hstale : current.generation ≠ e.generation)
    (w : World α) (t : Nat) (hw : mapGet w.components t = some s) :
    s.get e = none ∧ s.has e = false ∧ s.getChangedAt e = none ∧ s.remove e = s ∧
    w.getComponent e t = none ∧ w.hasComponent e t = false ∧
    w.getComponentChangedAt e t = none := by
  have hget : s.get e = none := by
    rw [ComponentStore.get, hstored]
    simp [hstale]
  have hhas : s.has e = false := by
    rw [ComponentStore.has, hstored]
    simp [hstale]
  have hchanged : s.getChangedAt e = none := by
    rw [ComponentStore.getChangedAt, hstored]
    simp [hstale]
  refine ⟨hget, hhas, hchanged, ?_, ?_, ?_, ?_⟩
  · rw [ComponentStore.remove, hstored]
    simp [hstale]
  · rw [World.getComponent, World.getStore, hw]
    simpa using hget
  · rw [World.hasComponent, hw]
    exact hhas
  · rw [World.getComponentChangedAt, hw]
    simpa using hchanged

/-- Witness for C9 at a concrete store and stale handle. -/
theorem stale_handle_noop_witness :
    sampleStaleStore.get sampleStaleEntity = none ∧
    sampleStaleStore.has sampleStaleEntity = false ∧
    sampleStaleStore.getChangedAt sampleStaleEntity = none ∧
    sampleStaleStore.remove sampleStaleEntity = sampleStaleStore ∧
    sampleStaleWorld.getComponent sampleStaleEntity 3 = none ∧
    sampleStaleWorld.hasComponent sampleStaleEntity 3 = false ∧
    sampleStaleWorld.getComponentChangedAt sampleStaleEntity 3 = none :=
  stale_handle_noop sampleStaleStore sampleStaleEntity ⟨0, 5, 1⟩ (by decide) (by decide)
    sampleStaleWorld 3 (by decide)

/-- C7 counterexample: `removeComponent` on an alive entity whose component
type has no registered store returns before bumping the tick, so the change
tick does not increase by one as the claim requires. -/
theorem removeComponent_no_store_tick_counterexample :
    sampleWorld1.entities.isAlive sampleEntity1 = true ∧
    ¬ (sampleWorld1.removeComponent sampleEntity1 7).changeTick =
        sampleWorld1.changeTick + 1 := by
  decide

/-- C7 (amended): every structural mutation bumps the single change tick by
exactly one — `spawnEntity` always; `destroy`, `addComponent` and
`removeComponent` exactly on an alive handle, where `removeComponent`
additionally requires that a store for the component type exists (with no
store it is a silent no-op, even on an alive entity).  `addComponent` and
`removeComponent` on a dead or stale handle, and `destroy` on a dead handle,
leave the world (hence the tick) unchanged, and `addComponent` stamps the
written component's `changedAt` with the post-increment tick value. -/
theorem change_tick_discipline {α : Type} (w : World α) (e : EntityId) (t : Nat) (c : α) :
    ((w.spawnEntity).1.changeTick = w.changeTick + 1) ∧
    (w.entities.isAlive e = true → (w.destroy e).changeTick = w.changeTick + 1) ∧
    (w.entities.isAlive e = false → w.destroy e = w) ∧
    (w.entities.isAlive e = true →
      (w.addComponent e t c).changeTick = w.changeTick + 1 ∧
      (w.addComponent e t c).getComponentChangedAt e t = some (w.changeTick + 1)) ∧
    (w.entities.isAlive e = false → w.addComponent e t c = w) ∧
    (w.entities.isAlive e = false → w.removeComponent e t = w) ∧
    (w.entities.isAlive e = true → ∀ s, mapGet w.components t = some s →
      (w.removeComponent e t).changeTick = w.changeTick + 1) ∧
    (w.entities.isAlive e = true → mapGet w.components t = none →
      w.removeComponent e t = w) := by
  refine ⟨rfl, ?_, ?_, ?_, ?_, ?_, ?_, ?_⟩
  · intro h
    rw [World.destroy, if_pos h]
  · intro h
    rw [World.destroy, if_neg (by simp [h])]
  · intro h
    constructor
    · rw [World.addComponent, if_pos h]
    · rw [World.addComponent, if_pos h, World.getComponentChangedAt]
      simp [mapGet_mapSet_eq, ComponentStore.add, ComponentStore.getChangedAt]
  · intro h
    rw [World.addComponent, if_neg (by simp [h])]
  · intro h
    rw [World.removeComponent, if_neg (by simp [h])]
  · intro h s hs
    rw [World.removeComponent, if_pos h, hs]
  · intro h hs
    rw [World.removeComponent, if_pos h, hs]

/-- Witness for the amended C7, discharging each guarded conjunct at a
concrete alive entity (with and without a registered store) and at a concrete
dead handle. -/
theorem change_tick_discipline_witness :
    ((sampleWorld1.spawnEntity).1.changeTick = sampleWorld1.changeTick + 1) ∧
    ((sampleWorld1.destroy sampleEntity1).changeTick = sampleWorld1.changeTick + 1) ∧
    ((sampleWorld1.addComponent sampleEntity1 0 5).changeTick = sampleWorld1.changeTick + 1) ∧
    ((sampleWorld1.addComponent sampleEntity1 0 5).getComponentChangedAt sampleEntity1 0 =
      some (sampleWorld1.changeTick + 1)) ∧
    (sampleWorld1.addComponent sampleStaleEntity 0 5 = sampleWorld1) ∧
    (sampleWorld1.removeComponent sampleStaleEntity 0 = sampleWorld1) ∧
    (sampleWorld1.destroy sampleStaleEntity = sampleWorld1) ∧
    ((sampleWorldC.removeComponent sampleEntity1 0).changeTick = sampleWorldC.changeTick + 1) ∧
    (sampleWorld1.removeComponent sampleEntity1 7 = sampleWorld1) := by
  have hAlive := change_tick_discipline sampleWorld1 sampleEntity1 0 (5 : Nat)
  have hDead := change_tick_discipline sampleWorld1 sampleStaleEntity 0 (5 : Nat)
  have hStore := change_tick_discipline sampleWorldC sampleEntity1 0 (5 : Nat)
  have hNoStore := change_tick_discipline sampleWorld1 sampleEntity1 7 (5 : Nat)
  exact ⟨hAlive.1, hAlive.2.1 (by decide), (hAlive.2.2.2.1 (by decide)).1,
    (hAlive.2.2.2.1 (by decide)).2, hDead.2.2.2.2.1 (by decide),
    hDead.2.2.2.2.2.1 (by decide), hDead.2.2.1 (by decide),
    hStore.2.2.2.2.2.2.1 (by decide) ⟨[(0, ⟨0, 5, 2⟩)]⟩ (by decide),
    hNoStore.2.2.2.2.2.2.2 (by decide) (by decide)⟩

/-- A dependency list containing a missing or under-versioned dependency makes
the validation loop report a failure. -/
theorem checkDependencies_some {α : Type} (m : ResourceMap α) (deps : List ResourceType)
    (h : ∃ d ∈ deps, mapGet m.values d.id = none ∨
        ∃ installed, mapGet m.values d.id = some installed ∧
          installed.type.version < d.version) :
    ∃ e, m.checkDependencies deps = some e := by
  induction deps with
  | nil =>
    obtain ⟨d, hd, _⟩ := h
    simp at hd
  | cons d0 rest ih =>
    obtain ⟨d, hd, hbad⟩ := h
    cases hh : mapGet m.values d0.id with
    | none =>
      exact ⟨.missingDependency d0.id, by simp [ResourceMap.checkDependencies, hh]⟩
    | some installed =>
      by_cases hv : installed.type.version < d0.version
      · exact ⟨.versionMismatch d0.id, by simp [ResourceMap.checkDependencies, hh, hv]⟩
      · rcases List.mem_cons.mp hd with rfl | hrest
        · rcases hbad with hnone | ⟨inst, hinst, hver⟩
          · rw [hh] at hnone
            exact absurd hnone (by simp)
          · rw [hh] at hinst
            injection hinst with he
            subst he
            exact absurd hver hv
        · obtain ⟨e, he⟩ := ih ⟨d, hrest, hbad⟩
          exact ⟨e, by simp [ResourceMap.checkDependencies, hh, hv, he]⟩

/-- C8: when some declared dependency of `t` is not installed, or is installed
with a version below the declared minimum, `insert` signals the failure and
the map is left completely unmodified (so `has`, `tryGet`, every other entry
and the revision counter are unchanged); when every dependency check passes,
`insert` stores the value under `t.id` and bumps the map-wide revision by
one. -/
theorem resource_insert_dependency_check {α : Type} (m : ResourceMap α) (t : ResourceType)
    (v : α) :
    ((∃ d ∈ t.dependencies, mapGet m.values d.id = none ∨
        ∃ installed, mapGet m.values d.id = some installed ∧
          installed.type.version < d.version) →
      (m.insert t v).1 = m ∧ (m.insert t v).2.isSome = true) ∧
    (m.checkDependencies t.dependencies = none →
      (m.insert t v).2 = none ∧
      (m.insert t v).1.revision = m.revision + 1 ∧
      (m.insert t v).1.tryGet t = some v ∧
      (m.insert t v).1.has t = true) := by
  constructor
  · intro hbad
    obtain ⟨e, he⟩ := checkDependencies_some m t.dependencies hbad
    have hins : m.insert t v = (m, some e) := by
      simp only [ResourceMap.insert, he]
    rw [hins]
    exact ⟨rfl, rfl⟩
  · intro hok
    have hins : m.insert t v =
        ({ revision := m.revision + 1
           values := mapSet m.values t.id ⟨t, v, m.revision + 1⟩ }, none) := by
      simp only [ResourceMap.insert, hok]
    rw [hins]
    refine ⟨rfl, rfl, ?_, ?_⟩
    · rw [ResourceMap.tryGet]
      simp [mapGet_mapSet_eq]
    · rw [ResourceMap.has]
      simp [mapGet_mapSet_eq]

/-- Witness for C8: inserting `physics` (which requires `time` version 2+)
into an empty map fails and leaves the map untouched; inserting the
dependency-free `time` succeeds, stores the value, and bumps the revision. -/
theorem resource_insert_dependency_check_witness :
    ((ResourceMap.insert ({} : ResourceMap Nat) physicsType 3).1 = {} ∧
      (ResourceMap.insert ({} : ResourceMap Nat) physicsType 3).2.isSome = true) ∧
    ((ResourceMap.insert ({} : ResourceMap Nat) timeV1 7).2 = none ∧
      (ResourceMap.insert ({} : ResourceMap Nat) timeV1 7).1.revision = 0 + 1 ∧
      (ResourceMap.insert ({} : ResourceMap Nat) timeV1 7).1.tryGet timeV1 = some 7 ∧
      (ResourceMap.insert ({} : ResourceMap Nat) timeV1 7).1.has timeV1 = true) :=
  ⟨(resource_insert_dependency_check ({} : ResourceMap Nat) physicsType 3).1
      ⟨timeV2, List.mem_cons_self _ _, Or.inl rfl⟩,
    (resource_insert_dependency_check ({} : ResourceMap Nat) timeV1 7).2 rfl⟩

/-- C10: `ResourceMap` lookups are keyed solely by the id string — `tryGet`
agrees on any two types with the same id regardless of version; `get` returns
the installed value whenever anything is installed under the id (even at a
lower version than requested, the requested version appearing only in the
not-registered error); `get` fails exactly when `tryGet` is `none`; and a
successful insert under an existing id silently replaces the entry for every
requester with that id. -/
theorem resource_lookup_by_id {α : Type} (m : ResourceMap α) (t tReq : ResourceType) (v : α) :
    (t.id = tReq.id → m.tryGet t = m.tryGet tReq) ∧
    (m.get t = .error ⟨t.id, t.version⟩ ↔ m.tryGet t = none) ∧
    (∀ gv : α, m.get t = .ok gv ↔ m.tryGet t = some gv) ∧
    (∀ inst : StoredResource α, mapGet m.values t.id = some inst →
      m.get t = .ok inst.value) ∧
    (m.checkDependencies t.dependencies = none → tReq.id = t.id →
      (m.insert t v).1.tryGet tReq = some v) := by
  refine ⟨?_, ?_, ?_, ?_, ?_⟩
  · intro h
    rw [ResourceMap.tryGet, ResourceMap.tryGet, h]
  · simp only [ResourceMap.get]
    cases h : m.tryGet t <;> simp
  · intro gv
    simp only [ResourceMap.get]
    cases h : m.tryGet t <;> simp
  · intro inst h
    simp [ResourceMap.get, ResourceMap.tryGet, h]
  · intro hok hid
    simp only [ResourceMap.insert, hok]
    rw [ResourceMap.tryGet, hid]
    simp [mapGet_mapSet_eq]

/-- Witness for C10 over a map holding `time` at version 1 with value 7:
requesting `time` at version 2 still finds the entry, both lookups agree, a
replacing insert is visible through the version-1 requester, and `get` on an
empty map fails with the requested version in the error. -/
theorem resource_lookup_by_id_witness :
    (sampleResources.tryGet timeV2 = sampleResources.tryGet timeV1) ∧
    (sampleResources.get timeV2 = .ok 7) ∧
    ((sampleResources.insert timeV2 9).1.tryGet timeV1 = some 9) ∧
    (ResourceMap.get ({} : ResourceMap Nat) timeV2 = .error ⟨timeV2.id, timeV2.version⟩) :=
  ⟨(resource_lookup_by_id sampleResources timeV2 timeV1 9).1 rfl,
    ((resource_lookup_by_id sampleResources timeV2 timeV1 9).2.2.1 7).mpr rfl,
    (resource_lookup_by_id sampleResources timeV2 timeV1 9).2.2.2.2 rfl rfl,
    (resource_lookup_by_id ({} : ResourceMap Nat) timeV2 timeV1 9).2.1.mpr rfl⟩

/-- Flushing a concatenation of operation queues applies the first queue, then
the second against the resulting world with the placeholder resolutions
carried over: FIFO compositionality of `flush`. -/
theorem applyOps_append {α : Type} (xs ys : List (CmdOp α)) (res : List (Nat × EntityId))
    (w : World α) :
    applyOps (xs ++ ys) res w =
      applyOps ys (applyOps xs res w).2 (applyOps xs res w).1 := by
  induction xs generalizing res w with
  | nil => rfl
  | cons op rest ih =>
    cases op with
    | spawn d cs =>
      simp only [List.cons_append, applyOps]
      exact ih _ _
    | destroy entity =>
      simp only [List.cons_append, applyOps]
      cases resolveRef res entity <;> exact ih _ _
    | add entity t c =>
      simp only [List.cons_append, applyOps]
      cases resolveRef res entity <;> exact ih _ _
    | remove entity t =>
      simp only [List.cons_append, applyOps]
      cases resolveRef res entity <;> exact ih _ _

/-- C6: queuing operations only appends to the buffer's FIFO queue (the world
is not an input of any queue operation, so the World is observably unchanged
until `flush`); `flush` applies the whole queue in FIFO order against the live
world and clears the queue; processing a `spawn` resolves its placeholder for
the operations after it; and an operation on a placeholder whose spawn has not
yet been flushed is silently skipped. -/
theorem commandbuffer_flush_fifo {α : Type} (b : CommandBuffer α) (w : World α)
    (entity : EntityRef) (t d : Nat) (c : α) (cs : List (Nat × α))
    (res : List (Nat × EntityId)) (rest : List (CmdOp α))
    (hunres : mapGet res d = none) :
    ((b.destroyEntity entity).operations = b.operations ++ [.destroy entity] ∧
     (b.addComponent entity t c).operations = b.operations ++ [.add entity t c] ∧
     (b.removeComponent entity t).operations = b.operations ++ [.remove entity t] ∧
     (b.spawn).1.operations = b.operations ++ [.spawn b.nextDeferredId []]) ∧
    ((b.flush w).2 = (applyOps b.operations [] w).1 ∧
     (b.flush w).1.operations = []) ∧
    (∀ (xs ys : List (CmdOp α)) r w0, applyOps (xs ++ ys) r w0 =
        applyOps ys (applyOps xs r w0).2 (applyOps xs r w0).1) ∧
    (applyOps (.spawn d cs :: rest) res w =
        applyOps rest (mapSet res d (w.spawnEntity).2)
          (cs.foldl (fun acc p => acc.addComponent (w.spawnEntity).2 p.1 p.2)
            (w.spawnEntity).1)) ∧
    (applyOps (.destroy (.deferred d) :: rest) res w = applyOps rest res w ∧
     applyOps (.add (.deferred d) t c :: rest) res w = applyOps rest res w ∧
     applyOps (.remove (.deferred d) t :: rest) res w = applyOps rest res w) := by
  refine ⟨⟨rfl, rfl, rfl, rfl⟩, ⟨rfl, rfl⟩, applyOps_append, rfl, ?_, ?_, ?_⟩
  · simp [applyOps, resolveRef, hunres]
  · simp [applyOps, resolveRef, hunres]
  · simp [applyOps, resolveRef, hunres]

/-- Witness for C6 at an empty buffer, the one-entity world, and an unresolved
placeholder (id 0 under an empty resolution list). -/
theorem commandbuffer_flush_fifo_witness :
    ((CommandBuffer.destroyEntity {} (.real sampleEntity1)).operations =
        ([] : List (CmdOp Nat)) ++ [.destroy (.real sampleEntity1)] ∧
     (CommandBuffer.addComponent {} (.real sampleEntity1) 0 5).operations =
        ([] : List (CmdOp Nat)) ++ [.add (.real sampleEntity1) 0 5] ∧
     (CommandBuffer.removeComponent ({} : CommandBuffer Nat) (.real sampleEntity1) 0).operations =
        [] ++ [.remove (.real sampleEntity1) 0] ∧
     (CommandBuffer.spawn ({} : CommandBuffer Nat)).1.operations =
        [] ++ [.spawn (0 : Nat) []]) ∧
    ((CommandBuffer.flush ({} : CommandBuffer Nat) sampleWorld1).2 =
        (applyOps ([] : List (CmdOp Nat)) [] sampleWorld1).1 ∧
     (CommandBuffer.flush ({} : CommandBuffer Nat) sampleWorld1).1.operations = []) ∧
    (∀ (xs ys : List (CmdOp Nat)) r w0, applyOps (xs ++ ys) r w0 =
        applyOps ys (applyOps xs r w0).2 (applyOps xs r w0).1) ∧
    (applyOps (.spawn 0 [(0, 5)] :: ([] : List (CmdOp Nat))) [] sampleWorld1 =
        applyOps [] (mapSet [] 0 (sampleWorld1.spawnEntity).2)
          ([(0, 5)].foldl (fun acc p => acc.addComponent (sampleWorld1.spawnEntity).2 p.1 p.2)
            (sampleWorld1.spawnEntity).1)) ∧
    (applyOps (.destroy (.deferred 0) :: ([] : List (CmdOp Nat))) [] sampleWorld1 =
        applyOps [] [] sampleWorld1 ∧
     applyOps (.add (.deferred 0) 0 5 :: ([] : List (CmdOp Nat))) [] sampleWorld1 =
        applyOps [] [] sampleWorld1 ∧
     applyOps (.remove (.deferred 0) 0 :: ([] : List (CmdOp Nat))) [] sampleWorld1 =
        applyOps [] [] sampleWorld1) :=
  commandbuffer_flush_fifo {} sampleWorld1 (.real sampleEntity1) 0 0 5 [(0, 5)] [] [] rfl

/-- A stage loop that completes a prefix of the system list continues through
the remainder from the state the prefix produced. -/
theorem runSystems_append_ok {α : Type} (allowAsync : Bool) {xs : List (MSystem α)}
    (ys : List (MSystem α)) {s s1 : StageState α}
    (hpre : runSystems allowAsync xs s = (s1, true)) :
    runSystems allowAsync (xs ++ ys) s = runSystems allowAsync ys s1 := by
  induction xs generalizing s with
  | nil =>
    injection hpre with h1 _
    rw [List.nil_append, h1]
  | cons sys rest ih =>
    simp only [runSystems] at hpre
    simp only [List.cons_append, runSystems]
    by_cases hg : (sys.runIf.map fun cond => cond s.world).getD true = false
    · rw [if_pos hg] at hpre
      rw [if_pos hg]
      exact ih hpre
    · rw [if_neg hg] at hpre
      rw [if_neg hg]
      rcases hk : sys.execute s with ⟨sm, k⟩
      rw [hk] at hpre
      cases k with
      | sync => exact ih hpre
      | promise =>
        cases allowAsync with
        | false => simp at hpre
        | true => exact ih hpre
      | thrown => simp at hpre

/-- C3: when a system of a stage throws, or returns a promise while the stage
disallows async, the stage execution stops at that system's state: the systems
after it in the sorted order are never invoked (the result does not depend on
them), the end-of-stage command-buffer flush is skipped, and the side effects
of the systems that already ran — including the failing system's partial
effects — persist in the returned state with no rollback. -/
theorem stage_abort_failfast {α : Type} (allowAsync : Bool) (pre post : List (MSystem α))
    (failing : MSystem α) (s s1 s2 : StageState α) (k : ExecKind)
    (hpre : runSystems allowAsync pre s = (s1, true))
    (hgate : (failing.runIf.map fun cond => cond s1.world).getD true = true)
    (hexec : failing.execute s1 = (s2, k))
    (hfail : k = .thrown ∨ (k = .promise ∧ allowAsync = false)) :
    stageExecute allowAsync (pre ++ failing :: post) s = (s2, false) := by
  have hrun : runSystems allowAsync (pre ++ failing :: post) s = (s2, false) := by
    rw [runSystems_append_ok allowAsync (failing :: post) hpre]
    simp only [runSystems]
    rw [if_neg (by simp [hgate]), hexec]
    rcases hfail with rfl | ⟨rfl, rfl⟩
    · rfl
    · simp
  simp only [stageExecute, hrun]

/-- Witness for C3: a queueing system runs, the thrower aborts, the trailing
system is never reached and no flush happens. -/
theorem stage_abort_failfast_witness :
    stageExecute false ([stageSysQueue] ++ stageSysThrow :: [stageSysLate]) sampleStage0 =
      ((stageSysThrow.execute (runSystems false [stageSysQueue] sampleStage0).1).1, false) :=
  stage_abort_failfast false [stageSysQueue] [stageSysLate] stageSysThrow sampleStage0
    (runSystems false [stageSysQueue] sampleStage0).1
    (stageSysThrow.execute (runSystems false [stageSysQueue] sampleStage0).1).1 .thrown
    rfl rfl rfl (Or.inl rfl)

/-- C4 counterexample: in the two-system stage `c4Systems` over the one-entity
world, the first invocation aborts with an `add` of component 0 still queued;
after the marker is added the next invocation of the same stage completes
successfully, yet component 0 is still absent — the operation queued during
the aborted invocation was never applied, because each invocation obtains a
fresh `CommandBuffer`. -/
theorem aborted_commands_not_replayed_counterexample :
    (runStage false c4Systems sampleWorld1).2 = false ∧
    (stageExecute false c4Systems { world := sampleWorld1, commands := {} }).1.commands.operations =
      [.add (.real sampleEntity1) 0 5] ∧
    (runStage false c4Systems c4MarkedWorld).2 = true ∧
    (runStage false c4Systems c4MarkedWorld).1.hasComponent sampleEntity1 0 = false :=
  ⟨rfl, rfl, rfl, rfl⟩

/-- C4 (amended): when an execution of a stage aborts, the command operations
queued during it are never applied to the World — the flush is skipped, the
invocation returns only the world the systems reached directly, the
per-invocation buffer holding the queued operations is discarded, and every
invocation of the stage starts from a fresh empty buffer, so its outcome is a
function of the starting world alone. -/
theorem aborted_commands_discarded {α : Type} (allowAsync : Bool)
    (systems : List (MSystem α)) (w : World α) (s1 : StageState α)
    (habort : runSystems allowAsync systems ⟨w, {}⟩ = (s1, false)) :
    runStage allowAsync systems w = (s1.world, false) ∧
    (∀ w' : World α, runStage allowAsync systems w' =
      ((stageExecute allowAsync systems ⟨w', {}⟩).1.world,
       (stageExecute allowAsync systems ⟨w', {}⟩).2)) := by
  constructor
  · simp only [runStage, stageExecute, habort]
  · intro w'
    rfl

/-- Witness for the amended C4 at the concrete aborting stage. -/
theorem aborted_commands_discarded_witness :
    runStage false c4Systems sampleWorld1 =
      ((runSystems false c4Systems ⟨sampleWorld1, {}⟩).1.world, false) ∧
    (∀ w' : World Nat, runStage false c4Systems w' =
      ((stageExecute false c4Systems ⟨w', {}⟩).1.world,
       (stageExecute false c4Systems ⟨w', {}⟩).2)) :=
  aborted_commands_discarded false c4Systems sampleWorld1
    (runSystems false c4Systems ⟨sampleWorld1, {}⟩).1 rfl

/-- Filtering with an everywhere-false predicate yields the empty list. -/
theorem listFilter_nil {β : Type} (l : List β) (p : β → Bool)
    (h : ∀ a ∈ l, p a = false) : l.filter p = [] := by
  induction l with
  | nil => rfl
  | cons x xs ih =>
    rw [List.filter_cons, h x (List.mem_cons_self _ _)]
    exact ih fun a ha => h a (List.mem_cons_of_mem _ ha)

/-- Every change stamp a world can report is bounded by its change tick, given
the store-level bound (which every API-built world maintains, since writes are
stamped with the post-increment tick). -/
theorem changedAt_le_of_inv {α : Type} (w : World α)
    (hInv : ∀ p ∈ w.components, ∀ pr ∈ p.2.values, pr.2.changedAt ≤ w.changeTick)
    (e : EntityId) (t : Nat) (c : Nat) (h : w.getComponentChangedAt e t = some c) :
    c ≤ w.changeTick := by
  rw [World.getComponentChangedAt] at h
  cases hs : mapGet w.components t with
  | none =>
    rw [hs] at h
    simp at h
  | some store =>
    rw [hs] at h
    simp only [Option.some_bind] at h
    simp only [ComponentStore.getChangedAt] at h
    cases hv : mapGet store.values e.index with
    | none =>
      rw [hv] at h
      simp at h
    | some current =>
      rw [hv] at h
      dsimp only at h
      by_cases hgen : current.generation = e.generation
      · rw [if_pos hgen] at h
        injection h with hc
        subst hc
        exact hInv (t, store) (mapGet_mem _ _ _ hs) (e.index, current) (mapGet_mem _ _ _ hv)
      · rw [if_neg hgen] at h
        simp at h

/-- Against a world whose change stamps are bounded by the current tick, a
query whose watermark already sits at the current tick matches nothing as long
as at least one changed-filter is set. -/
theorem matches_at_tick_false {α : Type} (q : Query) (w : World α)
    (hne : q.changedTypes ≠ [])
    (hInv : ∀ p ∈ w.components, ∀ pr ∈ p.2.values, pr.2.changedAt ≤ w.changeTick)
    (e : EntityId) :
    Query.matches { q with lastIteratedTick := (w.changeTick : Int) } w e = false := by
  rw [Bool.eq_false_iff]
  intro hm
  rw [Query.matches] at hm
  dsimp only at hm
  simp only [Bool.and_eq_true] at hm
  have hall := hm.2
  rcases hq : q.changedTypes with _ | ⟨t0, ts⟩
  · exact hne hq
  · rw [hq, List.all_cons, Bool.and_eq_true] at hall
    have h0 := hall.1
    cases hc : w.getComponentChangedAt e t0 with
    | none =>
      rw [hc] at h0
      exact Bool.noConfusion h0
    | some c =>
      rw [hc] at h0
      have hlt : (w.changeTick : Int) < (c : Int) := of_decide_eq_true h0
      have hle : (c : Int) ≤ (w.changeTick : Int) := by
        exact_mod_cast changedAt_le_of_inv w hInv e t0 c hc
      exact absurd hlt (not_lt.mpr hle)

/-- C5: with at least one changed-filter set and all change stamps bounded by
the world's tick (the store-level invariant every API-built world maintains),
a full drain of `iter` advances the watermark to the world's current tick, so
a second full drain of the same query instance with no intervening write
yields no results; a partially-consumed iteration (at most as many `next`
calls as there are rows) leaves the query — watermark included — unmoved and
yields the corresponding prefix, so it does not suppress the next drain. -/
theorem changed_filter_watermark {α : Type} (q : Query) (w : World α)
    (hne : q.changedTypes ≠ [])
    (hInv : ∀ p ∈ w.components, ∀ pr ∈ p.2.values, pr.2.changedAt ≤ w.changeTick) :
    (∀ k, (q.results w).length < k →
      ((q.drive w k).2.lastIteratedTick = (w.changeTick : Int) ∧
       (q.drive w k).2.results w = [] ∧
       ∀ j, ((q.drive w k).2.drive w j).1 = [])) ∧
    (∀ k, k ≤ (q.results w).length →
      ((q.drive w k).2 = q ∧ (q.drive w k).1 = (q.results w).take k)) := by
  have hres : Query.results { q with lastIteratedTick := (w.changeTick : Int) } w = [] := by
    rw [Query.results]
    rw [listFilter_nil _ _ fun e _ => matches_at_tick_false q w hne hInv e]
    rfl
  constructor
  · intro k hk
    have h2 : (q.drive w k).2 = { q with lastIteratedTick := (w.changeTick : Int) } := by
      simp only [Query.drive]
      rw [if_pos hk]
    refine ⟨by rw [h2], by rw [h2]; exact hres, ?_⟩
    intro j
    rw [h2]
    simp only [Query.drive, hres]
    split
    · rfl
    · simp
  · intro k hk
    have hnot : ¬ ((q.results w).length < k) := not_lt.mpr hk
    constructor
    · simp only [Query.drive]
      rw [if_neg hnot]
    · simp only [Query.drive]
      rw [if_neg hnot]

/-- Witness for C5 at the one-entity world with one written component: a full
drain (2 `next` calls against 1 row) moves the watermark to tick 2, the second
drain is empty, and a partial drain (1 call) leaves the query unchanged. -/
theorem changed_filter_watermark_witness :
    ((sampleQuery.drive sampleWorldC 2).2.lastIteratedTick = (sampleWorldC.changeTick : Int)) ∧
    ((sampleQuery.drive sampleWorldC 2).2.results sampleWorldC = []) ∧
    (((sampleQuery.drive sampleWorldC 2).2.drive sampleWorldC 2).1 = []) ∧
    ((sampleQuery.drive sampleWorldC 1).2 = sampleQuery) ∧
    ((sampleQuery.drive sampleWorldC 1).1 = (sampleQuery.results sampleWorldC).take 1) := by
  have h := changed_filter_watermark sampleQuery sampleWorldC (by decide) (by decide)
  exact ⟨(h.1 2 (by decide)).1, (h.1 2 (by decide)).2.1, (h.1 2 (by decide)).2.2 2,
    (h.2 1 (by decide)).1, (h.2 1 (by decide)).2⟩

/-- The fixed-update loop runs `min ⌊a / fd⌋₊ (cap - steps)` iterations, each
subtracting one `fixedDelta` from the accumulator. -/
theorem fixedLoop_spec (fd : ℚ) (hfd : 0 < fd) (cap : Nat) :
    ∀ (fuel steps : Nat) (a : ℚ), 0 ≤ a → steps ≤ cap → cap ≤ fuel + steps →
      fixedLoop fd cap fuel a steps =
        (a - ((min ⌊a / fd⌋₊ (cap - steps) : ℕ) : ℚ) * fd,
         steps + min ⌊a / fd⌋₊ (cap - steps)) := by
  intro fuel
  induction fuel with
  | zero =>
    intro steps a ha hsc hcf
    have h0 : cap - steps = 0 := by omega
    simp only [fixedLoop]
    rw [h0]
    simp
  | succ fuel ih =>
    intro steps a ha hsc hcf
    simp only [fixedLoop]
    by_cases hcond : fd ≤ a ∧ steps < cap
    · rw [if_pos hcond]
      obtain ⟨hfa, hsc'⟩ := hcond
      have ha' : 0 ≤ a - fd := by linarith
      have recur := ih (steps + 1) (a - fd) ha' (by omega) (by omega)
      rw [recur]
      have hdiv : (a - fd) / fd = a / fd - 1 := by
        rw [sub_div, div_self (ne_of_gt hfd)]
      have hfloor : ⌊(a - fd) / fd⌋₊ = ⌊a / fd⌋₊ - 1 := by
        rw [hdiv, Nat.floor_sub_one]
      have hF1 : 1 ≤ ⌊a / fd⌋₊ := by
        refine Nat.le_floor ?_
        rw [Nat.cast_one, one_le_div hfd]
        exact hfa
      have hmin : min (⌊a / fd⌋₊ - 1) (cap - (steps + 1)) =
          min ⌊a / fd⌋₊ (cap - steps) - 1 := by omega
      have hm1 : 1 ≤ min ⌊a / fd⌋₊ (cap - steps) := by omega
      rw [hfloor, hmin]
      simp only [Prod.mk.injEq]
      constructor
      · rw [Nat.cast_sub hm1]
        push_cast
        ring
      · omega
    · rw [if_neg hcond]
      have hz : min ⌊a / fd⌋₊ (cap - steps) = 0 := by
        rcases not_and_or.mp hcond with hfa | hsc'
        · have : ⌊a / fd⌋₊ = 0 := by
            rw [Nat.floor_eq_zero, div_lt_one hfd]
            exact lt_of_not_le hfa
          simp [this]
        · have : cap - steps = 0 := by omega
          simp [this]
      rw [hz]
      simp

/-- A replicated list whose element satisfies the predicate filters to
itself. -/
theorem filter_replicate_self {β : Type} (n : Nat) (x : β) (p : β → Bool) (hp : p x = true) :
    (List.replicate n x).filter p = List.replicate n x := by
  induction n with
  | zero => rfl
  | succ n ih => simp [List.replicate_succ, List.filter_cons, hp, ih]

/-- C2: a `step(dtReal)` call on a running, unpaused scheduler runs the
`FixedUpdate` stage exactly `min ⌊a / fixedDelta⌋₊ maxCatchUpSteps` times,
where `a` is the accumulator after adding `dtReal`; each run subtracts
`fixedDelta`, and if a full `fixedDelta` still remains after the cap was hit,
the accumulator is hard-reset to exactly 0 (otherwise it keeps the
remainder). -/
theorem scheduler_fixed_catchup (s : SchedulerState) (dtReal : ℚ)
    (hrun : s.isRunning = true) (hpause : s.isPaused = false)
    (hfd : 0 < s.time.fixedDelta) (hacc : 0 ≤ s.time.accumulator) (hdt : 0 ≤ dtReal) :
    ∃ s' trace, schedulerStep s dtReal = some (s', trace) ∧
      (trace.filter fun r => decide (r.name = "FixedUpdate")).length =
        min ⌊(s.time.accumulator + dtReal) / s.time.fixedDelta⌋₊ s.time.maxCatchUpSteps ∧
      s'.time.accumulator =
        (if s.time.fixedDelta ≤ (s.time.accumulator + dtReal) -
              ((min ⌊(s.time.accumulator + dtReal) / s.time.fixedDelta⌋₊
                  s.time.maxCatchUpSteps : ℕ) : ℚ) * s.time.fixedDelta
         then 0
         else (s.time.accumulator + dtReal) -
              ((min ⌊(s.time.accumulator + dtReal) / s.time.fixedDelta⌋₊
                  s.time.maxCatchUpSteps : ℕ) : ℚ) * s.time.fixedDelta) := by
  have hstep := schedulerStep
  have hloop := fixedLoop_spec s.time.fixedDelta hfd s.time.maxCatchUpSteps
    s.time.maxCatchUpSteps 0 (s.time.accumulator + dtReal)
    (add_nonneg hacc hdt) (Nat.zero_le _) (by omega)
  rw [Nat.sub_zero] at hloop
  have heq : schedulerStep s dtReal =
      some
        ({ s with
            bootExecuted := true
            time :=
              { s.time with
                  elapsed := s.time.elapsed + dtReal
                  accumulator :=
                    if s.time.fixedDelta ≤
                        (fixedLoop s.time.fixedDelta s.time.maxCatchUpSteps
                          s.time.maxCatchUpSteps (s.time.accumulator + dtReal) 0).1
                    then 0
                    else
                      (fixedLoop s.time.fixedDelta s.time.maxCatchUpSteps
                        s.time.maxCatchUpSteps (s.time.accumulator + dtReal) 0).1
                  frameCount := s.time.frameCount + 1 } },
         (if s.bootExecuted then [] else [⟨"Boot", dtReal⟩]) ++ [⟨"PreUpdate", dtReal⟩] ++
           List.replicate
             (fixedLoop s.time.fixedDelta s.time.maxCatchUpSteps s.time.maxCatchUpSteps
               (s.time.accumulator + dtReal) 0).2
             ⟨"FixedUpdate", s.time.fixedDelta⟩ ++
           [⟨"Update", dtReal⟩, ⟨"LateUpdate", dtReal⟩, ⟨"RenderPrep", dtReal⟩,
            ⟨"Render", dtReal⟩, ⟨"PostRender", dtReal⟩]) := by
    rw [schedulerStep, if_neg (not_lt.mpr hdt), if_neg (by simp [hrun, hpause])]
  refine ⟨_, _, heq, ?_, ?_⟩
  · rw [hloop]
    have hpB : (decide (("Boot" : String) = "FixedUpdate")) = false := by decide
    have hpP : (decide (("PreUpdate" : String) = "FixedUpdate")) = false := by decide
    have hpF : (decide (("FixedUpdate" : String) = "FixedUpdate")) = true := by decide
    have hpU : (decide (("Update" : String) = "FixedUpdate")) = false := by decide
    have hpL : (decide (("LateUpdate" : String) = "FixedUpdate")) = false := by decide
    have hpRp : (decide (("RenderPrep" : String) = "FixedUpdate")) = false := by decide
    have hpR : (decide (("Render" : String) = "FixedUpdate")) = false := by decide
    have hpPo : (decide (("PostRender" : String) = "FixedUpdate")) = false := by decide
    cases hb : s.bootExecuted <;>
      simp [List.filter_append, List.filter_cons, filter_replicate_self, hpB, hpP, hpF,
        hpU, hpL, hpRp, hpR, hpPo]
  · rw [hloop]

/-- Witness for C2 at the catch-up scenario of the spec: `fixedDelta = 1/60`,
`maxCatchUpSteps = 2`, empty accumulator, stepping with ten fixed-steps' worth
of time runs `FixedUpdate` exactly twice and resets the accumulator to 0. -/
theorem scheduler_fixed_catchup_witness :
    ∃ s' trace, schedulerStep sampleScheduler (1 / 6) = some (s', trace) ∧
      (trace.filter fun r => decide (r.name = "FixedUpdate")).length = 2 ∧
      s'.time.accumulator = 0 := by
  obtain ⟨s', trace, h1, h2, h3⟩ :=
    scheduler_fixed_catchup sampleScheduler (1 / 6) rfl rfl
      (by norm_num [sampleScheduler]) (by norm_num [sampleScheduler]) (by norm_num)
  have h10 : (sampleScheduler.time.accumulator + 1 / 6) / sampleScheduler.time.fixedDelta =
      (10 : ℚ) := by
    norm_num [sampleScheduler]
  have hmin : min ⌊(10 : ℚ)⌋₊ sampleScheduler.time.maxCatchUpSteps = 2 := by
    rw [Nat.floor_ofNat]
    decide
  refine ⟨s', trace, h1, ?_, ?_⟩
  · rw [h2, h10, hmin]
  · rw [h3, h10, hmin]
    rw [if_pos (by norm_num [sampleScheduler])]

end Clockwork
